import Mathlib

/-!
Shallow embedding of the retrieval and corpus-lifecycle subsystem of the
MedScope backend (`src/backend/main.py`), together with theorems checking
the natural-language specification of that subsystem against the code.

Modelling conventions:
* The process-wide mutable maps `processed_documents` and `document_sections`
  (Python dicts) are modelled as association lists `List (String × _)`;
  list order is dict insertion order, which Python dicts preserve and over
  which the endpoints iterate.
* The uploads directory on disk is modelled as a `Finset String` of filenames.
* Similarity scores (Python floats produced by `cosine_similarity`) are
  modelled as exact rationals `ℚ`.  The embedding model is an external
  collaborator (OpenAI embeddings), so the composite map
  `chunk content ↦ cosine_similarity(embed(sentence), embed(content))`
  is abstracted as a parameter `sim : String → ℚ`; it is deterministic in
  the chunk content, exactly as the collaborator contract states.
* `list.sort(key=..., reverse=True)` in Python is a stable descending sort;
  it is modelled by `sortDesc` below, proved to be a permutation, sorted
  descending, and stable.
* The FAISS vector store lives in `rag_engine.py`, which is not among the
  backend source files; following the specification, a rebuilt store is
  modelled as the list of chunks it was built from
  (`create_vector_store_from_documents(docs)` replaces the live store with
  an index over exactly `docs`).
-/

/-- Chunk metadata carried by each Langchain `Document`
(the parser records the owning document, the section, and the chunk index). -/
structure ChunkMeta where
  document_id : String
  section_name : String
  chunk_index : Nat
deriving DecidableEq, Repr

/-- One retrievable chunk, mirroring a Langchain `Document`
with `page_content` and `metadata`. -/
structure Chunk where
  page_content : String
  metadata : ChunkMeta
deriving DecidableEq, Repr

/-- Per-document information held in `document_sections`
(`doc_info` returned by the enhanced processor, plus the extracted topics). -/
structure DocInfo where
  topics : List String
  title : Option String
  sections : List (String × String)
deriving DecidableEq, Repr

/-- Typed rendering of the `HTTPException` status codes raised by the endpoints. -/
inductive ApiError where
  | badRequest (detail : String)
  | notFound (detail : String)
  | serverError (detail : String)
  | serviceUnavailable (detail : String)
deriving DecidableEq, Repr

/-- Outcome of an endpoint call: a JSON payload or an `HTTPException`. -/
inductive Resp (α : Type) where
  | ok (value : α)
  | err (e : ApiError)
deriving DecidableEq, Repr

/-- Process-wide mutable state of `main.py`: the uploads directory on disk,
the two corpus maps, and the live FAISS vector store (modelled by the list of
chunks it was last built from; `none` means no store is initialized). -/
structure AppState where
  uploads_dir : Finset String
  processed_documents : List (String × List Chunk)
  document_sections : List (String × DocInfo)
  vector_store : Option (List Chunk)
deriving DecidableEq

/-- Dict lookup on an association list (first binding wins, as in a dict
whose keys are unique). -/
def alookup {α : Type} (l : List (String × α)) (k : String) : Option α :=
  (l.find? (fun p => p.1 == k)).map (·.2)

/-- Dict assignment `d[k] = v`: overwrite in place if the key is present,
otherwise append (Python dicts keep insertion order). -/
def ainsert {α : Type} (l : List (String × α)) (k : String) (v : α) :
    List (String × α) :=
  if (alookup l k).isSome then
    l.map (fun p => if p.1 == k then (k, v) else p)
  else l ++ [(k, v)]

/-- `all_processed_documents`: flatten every stored document chunk list, in
dict insertion order, chunk order preserved. -/
def allChunks (pd : List (String × List Chunk)) : List Chunk :=
  (pd.map Prod.snd).flatten

/-! ### Stable descending sort

`similarities.sort(key=lambda x: x[s], reverse=True)` in Python is a stable
sort: entries are ordered by descending key, and entries with equal keys keep
their original relative order.  `sortDesc` is an insertion sort with exactly
this behaviour; the lemmas below establish permutation, descending order and
stability. -/

/-- Insert `x` in front of the first element whose key is not larger,
keeping earlier-inserted equal-key elements before it is not needed here:
`x` is placed before every element with key at most its own, which makes the
overall sort stable because `sortDesc` inserts from the left. -/
def insertDesc {α : Type} (key : α → ℚ) (x : α) : List α → List α
  | [] => [x]
  | y :: ys => if key x < key y then y :: insertDesc key x ys else x :: y :: ys

/-- Stable descending sort by `key`. -/
def sortDesc {α : Type} (key : α → ℚ) : List α → List α
  | [] => []
  | x :: xs => insertDesc key x (sortDesc key xs)

theorem insertDesc_perm {α : Type} (key : α → ℚ) (x : α) (l : List α) :
    (insertDesc key x l).Perm (x :: l) := by
  induction l with
  | nil => exact List.Perm.refl _
  | cons y ys ih =>
    rw [insertDesc]
    split
    · exact (ih.cons y).trans (List.Perm.swap x y ys)
    · exact List.Perm.refl _

theorem sortDesc_perm {α : Type} (key : α → ℚ) (l : List α) :
    (sortDesc key l).Perm l := by
  induction l with
  | nil => exact List.Perm.refl _
  | cons x xs ih =>
    rw [sortDesc]
    exact (insertDesc_perm key x (sortDesc key xs)).trans (ih.cons x)

theorem insertDesc_pairwise {α : Type} (key : α → ℚ) (r : α → α → Prop) (x : α)
    (l : List α)
    (hl : l.Pairwise (fun a b => key b < key a ∨ (key a = key b ∧ r a b)))
    (hx : ∀ b ∈ l, key x = key b → r x b) :
    (insertDesc key x l).Pairwise
      (fun a b => key b < key a ∨ (key a = key b ∧ r a b)) := by
  induction l with
  | nil => exact List.pairwise_singleton _ x
  | cons y ys ih =>
    rw [insertDesc]
    rcases List.pairwise_cons.mp hl with ⟨hy, hys⟩
    split
    · rename_i hlt
      refine List.pairwise_cons.mpr ⟨?_, ih hys (fun b hb he =>
        hx b (List.mem_cons_of_mem _ hb) he)⟩
      intro b hb
      rcases List.mem_cons.mp ((insertDesc_perm key x ys).mem_iff.mp hb) with
        hbx | hbys
      · subst hbx; exact Or.inl hlt
      · exact hy b hbys
    · rename_i hnlt
      have hyx : key y ≤ key x := le_of_not_lt hnlt
      refine List.pairwise_cons.mpr ⟨?_, hl⟩
      intro b hb
      rcases List.mem_cons.mp hb with hby | hbys
      · rw [hby]
        rcases lt_or_eq_of_le hyx with h | h
        · exact Or.inl h
        · exact Or.inr ⟨h.symm, hx y (List.mem_cons_self _ _) h.symm⟩
      · rcases hy b hbys with h | ⟨he, hr⟩
        · exact Or.inl (lt_of_lt_of_le h hyx)
        · rcases lt_or_eq_of_le hyx with h2 | h2
          · exact Or.inl (lt_of_le_of_lt (le_of_eq he.symm) h2)
          · have hxb : key x = key b := by rw [← h2, he]
            exact Or.inr ⟨hxb, hx b (List.mem_cons_of_mem _ hbys) hxb⟩

/-- The result of `sortDesc` is ordered by strictly descending key, except
that elements with equal keys appear in their original relative order: the
sort is stable.  `r` is any relation that holds along the original order. -/
theorem sortDesc_pairwise {α : Type} (key : α → ℚ) (r : α → α → Prop)
    (l : List α) (hl : l.Pairwise r) :
    (sortDesc key l).Pairwise
      (fun a b => key b < key a ∨ (key a = key b ∧ r a b)) := by
  induction l with
  | nil => exact List.Pairwise.nil
  | cons x xs ih =>
    rw [sortDesc]
    rcases List.pairwise_cons.mp hl with ⟨hx, hxs⟩
    refine insertDesc_pairwise key r x _ (ih hxs) ?_
    intro b hb _
    exact hx b ((sortDesc_perm key xs).mem_iff.mp hb)

/-- Weakening of `sortDesc_pairwise`: the keys are non-increasing. -/
theorem sortDesc_key_mono {α : Type} (key : α → ℚ) (l : List α) :
    (sortDesc key l).Pairwise (fun a b => key b ≤ key a) := by
  have h := sortDesc_pairwise key (fun _ _ => True) l
    (List.pairwise_iff_getElem.mpr (fun _ _ _ _ _ => trivial))
  exact h.imp (fun hab => hab.elim le_of_lt (fun hc => le_of_eq hc.1.symm))

/-! ### Endpoint `POST /delete_file` (`delete_file`, main.py lines 532 to 577)

Existence is checked against the uploads directory on disk; on success the
file is removed, the `processed_documents` entry (if any) is dropped, and the
vector store is rebuilt from the flattened remaining corpus, but only when
that corpus is non-empty (`if all_processed_documents:` in the source).
`document_sections` is not touched by deletion, exactly as in the source. -/

def delete_file (st : AppState) (filename : String) :
    AppState × Resp String :=
  if filename ∈ st.uploads_dir then
    let pd := st.processed_documents.filter (fun p => p.1 != filename)
    let all_processed_documents := allChunks pd
    let vs :=
      if all_processed_documents.isEmpty then st.vector_store
      else some all_processed_documents
    ({ st with
        uploads_dir := st.uploads_dir.erase filename,
        processed_documents := pd,
        vector_store := vs },
     Resp.ok "File deleted successfully")
  else (st, Resp.err (ApiError.notFound "File not found"))

/-! ### Endpoint `POST /upload` (`upload_pdf`, main.py lines 359 to 470)

The fallible collaborators are passed in as outcomes: `parse` is the result
of `enhanced_processor.process_pdf_enhanced`, `extract_topics` the result of
`llm_service.extract_key_topics`.  A raised exception on the processing path
is caught by the handler, which removes the saved file and re-raises a 500;
the two corpus maps are written between the parse step and the topic step,
and the vector store rebuild failure path is not modelled (a successful
rebuild replaces the store with an index over the whole corpus). -/

def upload_pdf (st : AppState) (orig_filename timestamp : String)
    (contents_len : Nat)
    (parse : Except String (List Chunk × DocInfo))
    (extract_topics : Except String (List String)) :
    AppState × Resp String :=
  if ¬ (".pdf".toList.isSuffixOf orig_filename.toList) then
    (st, Resp.err (ApiError.badRequest "Only PDF files are allowed"))
  else
    let filename := timestamp ++ "_" ++ orig_filename
    if contents_len = 0 then
      (st, Resp.err (ApiError.serverError "Error saving file: Uploaded file is empty"))
    else
      let st1 := { st with uploads_dir := insert filename st.uploads_dir }
      match parse with
      | Except.error e =>
        ({ st1 with uploads_dir := st1.uploads_dir.erase filename },
         Resp.err (ApiError.serverError ("Error processing PDF: " ++ e)))
      | Except.ok (lc_documents, doc_info) =>
        if lc_documents.isEmpty then
          ({ st1 with uploads_dir := st1.uploads_dir.erase filename },
           Resp.err (ApiError.serverError
             "Error processing PDF: Could not extract any content from the PDF"))
        else
          let st2 := { st1 with
            processed_documents :=
              ainsert st1.processed_documents filename lc_documents,
            document_sections :=
              ainsert st1.document_sections filename doc_info }
          match extract_topics with
          | Except.error e =>
            ({ st2 with uploads_dir := st2.uploads_dir.erase filename },
             Resp.err (ApiError.serverError ("Error processing PDF: " ++ e)))
          | Except.ok topics =>
            let doc_info2 := { doc_info with topics := topics }
            let st3 := { st2 with
              document_sections :=
                ainsert st2.document_sections filename doc_info2 }
            let all := allChunks st3.processed_documents
            let st4 :=
              if all.isEmpty then st3 else { st3 with vector_store := some all }
            (st4, Resp.ok "File uploaded and processed successfully")

/-! ### Endpoint `POST /query` (`query_papers`, main.py lines 579 to 643)

The only request validation is `if not filenames` (missing or empty list).
The query text is then handed to `rage_engine.qa_chain.ainvoke` unmodified;
when the chain is absent the raised exception is mapped to a 503. -/

structure ChainOutput where
  answer : String
  source_documents : List Chunk
deriving DecidableEq, Repr

structure QuerySource where
  content : String
  metadata : ChunkMeta
deriving DecidableEq, Repr

def query_papers (qa_chain : Option (String → ChainOutput))
    (query : String) (filenames : Option (List String)) :
    Resp (String × List QuerySource) :=
  match filenames with
  | none => Resp.err (ApiError.badRequest "No papers specified for query")
  | some fs =>
    if fs.isEmpty then
      Resp.err (ApiError.badRequest "No papers specified for query")
    else
      match qa_chain with
      | none => Resp.err (ApiError.serviceUnavailable
          "RAG system not ready. Please upload and process a document.")
      | some chain =>
        let out := chain query
        Resp.ok (out.answer,
          out.source_documents.map (fun d =>
            QuerySource.mk d.page_content d.metadata))

/-! ### Endpoint `POST /explanation` (`get_sentence_explanation`,
main.py lines 645 to 691)

`sim` abstracts the composite collaborator call
`cosine_similarity(embed(sentence), embed(chunk content))`, deterministic in
the chunk content for the fixed target sentence.  Every chunk of the named
document is scored, the scored list is sorted descending by similarity with
the stable Python sort, the top 3 are returned, and the confidence is the
arithmetic mean of the returned similarities (0 when there are none). -/

structure ScoredChunk where
  content : String
  similarity : ℚ
  metadata : ChunkMeta
deriving DecidableEq, Repr

/-- The `similarities` list: every chunk of the document scored. -/
def explanationScored (sim : String → ℚ) (document_chunks : List Chunk) :
    List ScoredChunk :=
  document_chunks.map (fun doc =>
    ScoredChunk.mk doc.page_content (sim doc.page_content) doc.metadata)

/-- `top_chunks`: the scored list sorted descending, first three kept. -/
def explanationTop (sim : String → ℚ) (document_chunks : List Chunk) :
    List ScoredChunk :=
  (sortDesc ScoredChunk.similarity (explanationScored sim document_chunks)).take 3

/-- `confidence`: mean similarity of the returned chunks, 0 when none. -/
def explanationConfidence (sim : String → ℚ) (document_chunks : List Chunk) : ℚ :=
  if (explanationTop sim document_chunks).isEmpty then 0
  else ((explanationTop sim document_chunks).map ScoredChunk.similarity).sum /
    (explanationTop sim document_chunks).length

def get_sentence_explanation (sim : String → ℚ)
    (pd : List (String × List Chunk)) (filename : String) :
    Resp (List ScoredChunk × ℚ) :=
  match alookup pd filename with
  | none => Resp.err (ApiError.notFound "Processed data not found for this file.")
  | some document_chunks =>
    Resp.ok (explanationTop sim document_chunks,
             explanationConfidence sim document_chunks)

/-! ### Endpoint `POST /query-doc` (`query_document`, main.py lines 693 to 742)

The retrieval step scores only the chunks stored under the requested
document id, sorts them descending by similarity and keeps the top 5; the
answering step is the LLM collaborator, abstracted as `answer`. -/

structure RetrievedChunk where
  content : String
  metadata : ChunkMeta
  similarity : ℚ
deriving DecidableEq, Repr

structure AnswerResult where
  answer : String
  citations : List String
deriving DecidableEq, Repr

def query_doc_relevant_chunks (sim : String → ℚ) (doc_chunks : List Chunk) :
    List RetrievedChunk :=
  let similarities := doc_chunks.map (fun doc =>
    RetrievedChunk.mk doc.page_content doc.metadata (sim doc.page_content))
  (sortDesc RetrievedChunk.similarity similarities).take 5

def query_document (sim : String → ℚ)
    (answer : List RetrievedChunk → AnswerResult)
    (pd : List (String × List Chunk)) (document_id : String) :
    Resp (String × List String × String) :=
  match alookup pd document_id with
  | none => Resp.err (ApiError.notFound "Document not found")
  | some doc_chunks =>
    let relevant_chunks := query_doc_relevant_chunks sim doc_chunks
    let answer_result := answer relevant_chunks
    Resp.ok (answer_result.answer, answer_result.citations, document_id)

/-! ### Endpoint `GET /related-documents` (`get_related_documents`,
main.py lines 832 to 863)

For every other document in `document_sections` (dict insertion order) with a
non-empty topic intersection, an entry with the Jaccard score is collected;
the list is sorted descending by score with the stable Python sort and cut to
the top 5.  A target absent from `document_sections` is a 404; a target with
an empty topic set yields an empty result. -/

structure RelatedEntry where
  filename : String
  title : String
  common_topics : Finset String
  similarity_score : ℚ
deriving DecidableEq

/-- Position of a key in the corpus dict: the index of its binding in
insertion order. -/
def keyIdx {α : Type} (s : List (String × α)) (name : String) : Nat :=
  s.findIdx (fun p => p.1 == name)

/-- The `related` list built by the loop body, before sorting and
truncation. -/
def relatedEntries (s : List (String × DocInfo)) (filename : String) :
    List RelatedEntry :=
  let target_topics := (((alookup s filename).map DocInfo.topics).getD []).toFinset
  s.filterMap (fun p =>
    if p.1 ≠ filename then
      let other_topics := p.2.topics.toFinset
      let overlap := (target_topics ∩ other_topics).card
      if 0 < overlap then
        some (RelatedEntry.mk p.1 (p.2.title.getD p.1)
          (target_topics ∩ other_topics)
          ((overlap : ℚ) / ((target_topics ∪ other_topics).card : ℚ)))
      else none
    else none)

def get_related_documents (s : List (String × DocInfo)) (filename : String) :
    Resp (List RelatedEntry) :=
  match alookup s filename with
  | none => Resp.err (ApiError.notFound "Document not found")
  | some info =>
    if info.topics.toFinset = ∅ then Resp.ok []
    else Resp.ok
      ((sortDesc RelatedEntry.similarity_score (relatedEntries s filename)).take 5)

/-! ### Endpoint `GET /debug-index-health` (`check_index_health`,
main.py lines 932 to 966)

When no vector store is initialized the handler raises a 400; otherwise it
reads the FAISS index statistics and runs a one-result test search, returning
an unhealthy payload (still HTTP 200) if that search raises. -/

structure IndexInfo where
  ntotal : Nat
  d : Nat
  is_trained : Bool
deriving DecidableEq, Repr

inductive HealthResponse where
  | healthy (total_vectors dimension : Nat) (is_trained test_search_successful : Bool)
      (index_path : String) (index_file_exists : Bool)
  | unhealthy (error : String)
deriving DecidableEq, Repr

def check_index_health (vector_store : Option IndexInfo) (index_path : String)
    (index_file_exists : Bool) (search_exception : Option String) :
    Resp HealthResponse :=
  match vector_store with
  | none => Resp.err (ApiError.badRequest "Vector store not initialized")
  | some index =>
    match search_exception with
    | some e => Resp.ok (HealthResponse.unhealthy e)
    | none => Resp.ok (HealthResponse.healthy index.ntotal index.d
        index.is_trained true index_path index_file_exists)

/-! ### Startup (`startup_event` and the two background tasks,
main.py lines 139 to 243)

The asyncio execution is linearized into its deterministic event order:
`startup_event` sets `startup_in_progress`, schedules
`delayed_initialization` and returns; `delayed_initialization` sleeps,
creates the two background tasks without awaiting them, and clears
`startup_in_progress` in its `finally` block; only then does the event loop
run the two created tasks, each of which settles by success, failure or
timeout (`ok` below) and marks its settled outcome.  `create_task` does not
run the child before the creating coroutine suspends or finishes, so the
clear step deterministically precedes both settle steps. -/

structure StartupSt where
  faiss_initialized : Bool
  arxiv_initialized : Bool
  startup_in_progress : Bool
  faiss_settled : Bool
  arxiv_settled : Bool
deriving DecidableEq, Repr

def startupInit : StartupSt :=
  StartupSt.mk false false false false false

inductive StartupEv where
  | enterStartup
  | scheduleSubtasks
  | clearInProgress
  | settleFaiss (ok : Bool)
  | settleArxiv (ok : Bool)
deriving DecidableEq, Repr

def startupStep (st : StartupSt) : StartupEv → StartupSt
  | StartupEv.enterStartup =>
    if st.startup_in_progress then st
    else { st with startup_in_progress := true }
  | StartupEv.scheduleSubtasks => st
  | StartupEv.clearInProgress => { st with startup_in_progress := false }
  | StartupEv.settleFaiss ok =>
    { st with faiss_settled := true,
              faiss_initialized := st.faiss_initialized || ok }
  | StartupEv.settleArxiv ok =>
    { st with arxiv_settled := true,
              arxiv_initialized := st.arxiv_initialized || ok }

def startupEvents (faissOk arxivOk : Bool) : List StartupEv :=
  [StartupEv.enterStartup, StartupEv.scheduleSubtasks,
   StartupEv.clearInProgress, StartupEv.settleFaiss faissOk,
   StartupEv.settleArxiv arxivOk]

/-- The successive process states during startup, in execution order
(first entry is the initial state). -/
def startupTrace (faissOk arxivOk : Bool) : List StartupSt :=
  (startupEvents faissOk arxivOk).scanl startupStep startupInit

/-! ### Association list and key position lemmas -/

theorem alookup_eq_some_of_mem {α : Type} {s : List (String × α)}
    {k : String} {v : α} (hnd : (s.map Prod.fst).Nodup) (h : (k, v) ∈ s) :
    alookup s k = some v := by
  induction s with
  | nil => cases h
  | cons p t ih =>
    rw [List.map_cons, List.nodup_cons] at hnd
    obtain ⟨hh, ht⟩ := hnd
    rcases List.mem_cons.mp h with he | ht2
    · rw [← he]
      rw [alookup, List.find?_cons_of_pos _ (by simp)]
      rfl
    · have hne : (p.1 == k) = false := by
        refine beq_eq_false_iff_ne.mpr ?_
        intro heq
        exact hh (heq ▸ List.mem_map_of_mem Prod.fst ht2)
      rw [alookup, List.find?_cons_of_neg _ (by simp [hne])]
      exact ih ht ht2

theorem mem_of_alookup_eq_some {α : Type} {s : List (String × α)}
    {k : String} {v : α} (h : alookup s k = some v) : (k, v) ∈ s := by
  unfold alookup at h
  cases hf : s.find? (fun p => p.1 == k) with
  | none => rw [hf] at h; cases h
  | some p =>
    rw [hf] at h
    have hp1 : p.1 = k := by
      have := List.find?_some hf
      simpa using this
    have hmem := List.mem_of_find?_eq_some hf
    have hv : p.2 = v := by
      simpa using h
    have hpkv : p = (k, v) := by
      cases p
      simp_all
    rwa [hpkv] at hmem

theorem keyIdx_head {α : Type} (p : String × α) (t : List (String × α)) :
    keyIdx (p :: t) p.1 = 0 := by
  simp [keyIdx, List.findIdx_cons]

theorem keyIdx_cons_ne {α : Type} (p : String × α) (t : List (String × α))
    (name : String) (h : p.1 ≠ name) :
    keyIdx (p :: t) name = keyIdx t name + 1 := by
  have hb : (p.1 == name) = false := beq_eq_false_iff_ne.mpr h
  simp [keyIdx, List.findIdx_cons, hb]

/-- With unique keys, the bindings of an association list are pairwise
ordered by their key positions: the dict iteration order is the insertion
order of the keys. -/
theorem pairwise_keyIdx {α : Type} (s : List (String × α))
    (hnd : (s.map Prod.fst).Nodup) :
    s.Pairwise (fun p q => keyIdx s p.1 < keyIdx s q.1) := by
  induction s with
  | nil => exact List.Pairwise.nil
  | cons h t ih =>
    rw [List.map_cons, List.nodup_cons] at hnd
    obtain ⟨hh, ht⟩ := hnd
    refine List.pairwise_cons.mpr ⟨?_, ?_⟩
    · intro q hq
      have hqne : h.1 ≠ q.1 := by
        intro he
        exact hh (he ▸ List.mem_map_of_mem Prod.fst hq)
      rw [keyIdx_head, keyIdx_cons_ne h t q.1 hqne]
      exact Nat.succ_pos _
    · refine (ih ht).imp_of_mem ?_
      intro a b ha hb hab
      have hane : h.1 ≠ a.1 := by
        intro he
        exact hh (he ▸ List.mem_map_of_mem Prod.fst ha)
      have hbne : h.1 ≠ b.1 := by
        intro he
        exact hh (he ▸ List.mem_map_of_mem Prod.fst hb)
      rw [keyIdx_cons_ne h t a.1 hane, keyIdx_cons_ne h t b.1 hbne]
      exact Nat.succ_lt_succ hab

/-! ### Concrete fixtures for the attribution scenario (spec section 8):
document D1 with four chunks whose similarities to the probe sentence are
0.9, 0.4, 0.8, 0.1. -/

def d1Meta (i : Nat) : ChunkMeta := ChunkMeta.mk "D1" "body" i

def d1Chunks : List Chunk :=
  [Chunk.mk "c0" (d1Meta 0), Chunk.mk "c1" (d1Meta 1),
   Chunk.mk "c2" (d1Meta 2), Chunk.mk "c3" (d1Meta 3)]

def d1Sim : String → ℚ
  | "c0" => 9/10
  | "c1" => 2/5
  | "c2" => 4/5
  | "c3" => 1/10
  | _ => 0

def d1Corpus : List (String × List Chunk) := [("D1", d1Chunks)]

/-- C2: for every target sentence (abstracted by its per-chunk cosine
similarity function) and every document present in the corpus, the
attribution endpoint scores every chunk of that document, sorts descending
by similarity with a stable sort that preserves original chunk order on
ties, returns the top 3, and reports confidence equal to the arithmetic mean
of the returned similarities (mean of fewer than 3 when the document has
fewer chunks, 0 when it has none); for the concrete chunk similarities
0.9, 0.4, 0.8, 0.1 it returns similarities 0.9, 0.8, 0.4 with
confidence 0.7. -/
theorem attribution_spec (sim : String → ℚ) (pd : List (String × List Chunk))
    (filename : String) (document_chunks : List Chunk)
    (hfind : alookup pd filename = some document_chunks)
    (hmono : (document_chunks.map
      (fun c => c.metadata.chunk_index)).Pairwise (· < ·)) :
    get_sentence_explanation sim pd filename =
      Resp.ok (explanationTop sim document_chunks,
               explanationConfidence sim document_chunks) ∧
    (explanationTop sim document_chunks).Pairwise
      (fun a b => b.similarity < a.similarity ∨
        (a.similarity = b.similarity ∧
          a.metadata.chunk_index < b.metadata.chunk_index)) ∧
    (explanationTop sim document_chunks).length = min 3 document_chunks.length ∧
    (∃ rest, ((explanationTop sim document_chunks) ++ rest).Perm
        (explanationScored sim document_chunks) ∧
      ∀ a ∈ explanationTop sim document_chunks, ∀ b ∈ rest,
        b.similarity ≤ a.similarity) ∧
    (document_chunks = [] → explanationConfidence sim document_chunks = 0) ∧
    (document_chunks ≠ [] → explanationConfidence sim document_chunks =
      ((explanationTop sim document_chunks).map ScoredChunk.similarity).sum /
        (explanationTop sim document_chunks).length) ∧
    get_sentence_explanation d1Sim d1Corpus "D1" =
      Resp.ok ([ScoredChunk.mk "c0" (9/10) (d1Meta 0),
                ScoredChunk.mk "c2" (4/5) (d1Meta 2),
                ScoredChunk.mk "c1" (2/5) (d1Meta 1)], 7/10) := by
  have hscored : (explanationScored sim document_chunks).Pairwise
      (fun a b => a.metadata.chunk_index < b.metadata.chunk_index) := by
    refine List.pairwise_map.mpr ?_
    exact List.pairwise_map.mp hmono
  have hsorted := sortDesc_pairwise ScoredChunk.similarity
    (fun a b => a.metadata.chunk_index < b.metadata.chunk_index)
    (explanationScored sim document_chunks) hscored
  have hperm := sortDesc_perm ScoredChunk.similarity
    (explanationScored sim document_chunks)
  have hlen : (explanationTop sim document_chunks).length =
      min 3 document_chunks.length := by
    rw [explanationTop, List.length_take, hperm.length_eq, explanationScored,
      List.length_map]
  refine ⟨?_, ?_, hlen, ?_, ?_, ?_, ?_⟩
  · unfold get_sentence_explanation
    rw [hfind]
  · exact List.Pairwise.sublist (List.take_sublist 3 _) hsorted
  · refine ⟨(sortDesc ScoredChunk.similarity
      (explanationScored sim document_chunks)).drop 3, ?_, ?_⟩
    · rw [explanationTop, List.take_append_drop]
      exact hperm
    · have hmonok := sortDesc_key_mono ScoredChunk.similarity
        (explanationScored sim document_chunks)
      rw [← List.take_append_drop 3 (sortDesc ScoredChunk.similarity
        (explanationScored sim document_chunks))] at hmonok
      exact (List.pairwise_append.mp hmonok).2.2
  · intro h
    subst h
    rfl
  · intro h
    have hpos : 0 < document_chunks.length := List.length_pos.mpr h
    have htpos : (explanationTop sim document_chunks) ≠ [] := by
      intro hnil
      rw [hnil] at hlen
      simp only [List.length_nil] at hlen
      omega
    rw [explanationConfidence, if_neg (by simpa using htpos)]
  · have h1 : alookup d1Corpus "D1" = some d1Chunks := by rfl
    unfold get_sentence_explanation
    rw [h1]
    norm_num [explanationTop, explanationScored, explanationConfidence,
      sortDesc, insertDesc, d1Sim, d1Chunks, d1Meta]

/-- Witness for `attribution_spec` at the concrete D1 fixture. -/
theorem attribution_spec_witness :
    alookup d1Corpus "D1" = some d1Chunks ∧
    (d1Chunks.map (fun c => c.metadata.chunk_index)).Pairwise (· < ·) ∧
    get_sentence_explanation d1Sim d1Corpus "D1" =
      Resp.ok (explanationTop d1Sim d1Chunks,
               explanationConfidence d1Sim d1Chunks) :=
  ⟨by rfl, by decide,
   (attribution_spec d1Sim d1Corpus "D1" d1Chunks (by rfl) (by decide)).1⟩

/-! ### Fixtures for the scoped-query claim -/

def aChunks : List Chunk :=
  [Chunk.mk "a0" (ChunkMeta.mk "A" "s" 0), Chunk.mk "a1" (ChunkMeta.mk "A" "s" 1)]

def bChunks : List Chunk := [Chunk.mk "b0" (ChunkMeta.mk "B" "s" 0)]

def abCorpus : List (String × List Chunk) := [("A", aChunks), ("B", bChunks)]

def constSim : String → ℚ := fun _ => 0

def constAnswer : List RetrievedChunk → AnswerResult :=
  fun _ => AnswerResult.mk "ans" []

/-- C8: for every document-scoped query, the retrieval step of the
query-doc endpoint scores only the chunk list stored under the requested
document id, so every retrieved chunk is one of that document's chunks;
whenever the stored chunks carry their owning document id in their metadata
(the ingestion invariant of the data model), every retrieved chunk has
`metadata.document_id` equal to the requested id, for every similarity
function and every corpus. -/
theorem scoped_query_spec (sim : String → ℚ)
    (answer : List RetrievedChunk → AnswerResult)
    (pd : List (String × List Chunk)) (document_id : String)
    (doc_chunks : List Chunk)
    (hfind : alookup pd document_id = some doc_chunks)
    (hinv : ∀ c ∈ doc_chunks, c.metadata.document_id = document_id) :
    query_document sim answer pd document_id =
      Resp.ok ((answer (query_doc_relevant_chunks sim doc_chunks)).answer,
               (answer (query_doc_relevant_chunks sim doc_chunks)).citations,
               document_id) ∧
    (∀ r ∈ query_doc_relevant_chunks sim doc_chunks,
      ∃ c ∈ doc_chunks,
        r = RetrievedChunk.mk c.page_content c.metadata (sim c.page_content)) ∧
    (∀ r ∈ query_doc_relevant_chunks sim doc_chunks,
      r.metadata.document_id = document_id) := by
  have hmem : ∀ r ∈ query_doc_relevant_chunks sim doc_chunks,
      ∃ c ∈ doc_chunks,
        r = RetrievedChunk.mk c.page_content c.metadata (sim c.page_content) := by
    intro r hr
    have h1 : r ∈ sortDesc RetrievedChunk.similarity (doc_chunks.map (fun doc =>
        RetrievedChunk.mk doc.page_content doc.metadata (sim doc.page_content))) :=
      List.mem_of_mem_take hr
    have h2 := (sortDesc_perm RetrievedChunk.similarity _).mem_iff.mp h1
    rcases List.mem_map.mp h2 with ⟨c, hc, hce⟩
    exact ⟨c, hc, hce.symm⟩
  refine ⟨?_, hmem, ?_⟩
  · unfold query_document
    rw [hfind]
  · intro r hr
    rcases hmem r hr with ⟨c, hc, he⟩
    rw [he]
    exact hinv c hc

/-- Witness for `scoped_query_spec` on a two-document corpus. -/
theorem scoped_query_spec_witness :
    alookup abCorpus "A" = some aChunks ∧
    (∀ c ∈ aChunks, c.metadata.document_id = "A") ∧
    ∀ r ∈ query_doc_relevant_chunks constSim aChunks,
      r.metadata.document_id = "A" :=
  ⟨by rfl, by decide,
   (scoped_query_spec constSim constAnswer abCorpus "A" aChunks
     (by rfl) (by decide)).2.2⟩

/-! ### The blank-query claim -/

/-- Constant QA chain used in the blank-query scenario. -/
def constChain : String → ChainOutput := fun _ => ChainOutput.mk "answer" []

/-- C6 counterexample: a query whose text is blank but whose filename list
is non-empty is not rejected: the blank text is handed to the QA chain and
the endpoint returns the generated answer, so no EmptyQuery error occurs
and retrieval is invoked on the blank text. -/
theorem blank_query_counterexample :
    query_papers (some constChain) "" (some ["paper.pdf"]) =
      Resp.ok ("answer", []) := by rfl

/-- C6 amended: the query endpoint performs no blank-text validation; its
only request validation rejects a missing or empty filename list with a 400
error, and any query text, blank included, is passed unmodified to the QA
chain whose answer is returned. -/
theorem query_validation_spec (chain : String → ChainOutput) (q : String)
    (fns : List String) (hne : fns ≠ []) :
    query_papers (some chain) q (some fns) =
      Resp.ok ((chain q).answer, (chain q).source_documents.map (fun d =>
        QuerySource.mk d.page_content d.metadata)) ∧
    query_papers (some chain) q none =
      Resp.err (ApiError.badRequest "No papers specified for query") ∧
    query_papers (some chain) q (some []) =
      Resp.err (ApiError.badRequest "No papers specified for query") := by
  refine ⟨?_, rfl, rfl⟩
  have h : fns.isEmpty = false := by
    cases fns with
    | nil => cases hne rfl
    | cons a l => rfl
  unfold query_papers
  simp [h]

/-- Witness for `query_validation_spec` at a blank query. -/
theorem query_validation_spec_witness :
    ((["paper.pdf"] : List String) ≠ []) ∧
    query_papers (some constChain) "" (some ["paper.pdf"]) =
      Resp.ok ((constChain "").answer,
        (constChain "").source_documents.map (fun d =>
          QuerySource.mk d.page_content d.metadata)) :=
  ⟨by decide, (query_validation_spec constChain "" ["paper.pdf"] (by decide)).1⟩

/-! ### The index-health claim -/

/-- C7 counterexample: with no vector store initialized, the index health
endpoint raises a 400 error instead of returning a report with zero vectors
and is_trained false. -/
theorem index_health_counterexample :
    check_index_health none "faiss_index" false none =
      Resp.err (ApiError.badRequest "Vector store not initialized") := by rfl

/-- C7 amended: the index health endpoint fails with a 400 error exactly
when no vector store is initialized; when a store exists it does not fail,
returning the healthy statistics report, or an unhealthy payload when the
test search raises. -/
theorem index_health_spec (vs : Option IndexInfo) (path : String)
    (fe : Bool) (exc : Option String) :
    (vs = none → check_index_health vs path fe exc =
      Resp.err (ApiError.badRequest "Vector store not initialized")) ∧
    (∀ idx, vs = some idx → check_index_health vs path fe exc =
      Resp.ok (match exc with
        | some e => HealthResponse.unhealthy e
        | none => HealthResponse.healthy idx.ntotal idx.d idx.is_trained
            true path fe)) := by
  constructor
  · intro h
    subst h
    rfl
  · intro idx h
    subst h
    cases exc <;> rfl

/-- Witness for `index_health_spec` in both the missing-store and
present-store cases. -/
theorem index_health_spec_witness :
    check_index_health none "faiss_index" false none =
      Resp.err (ApiError.badRequest "Vector store not initialized") ∧
    check_index_health (some (IndexInfo.mk 4 1536 true)) "faiss_index" true none =
      Resp.ok (HealthResponse.healthy 4 1536 true true "faiss_index" true) :=
  ⟨(index_health_spec none "faiss_index" false none).1 rfl,
   (index_health_spec (some (IndexInfo.mk 4 1536 true)) "faiss_index" true
     none).2 (IndexInfo.mk 4 1536 true) rfl⟩

/-! ### The startup-sequencing claim -/

/-- C5 counterexample: in the startup trace, `startup_in_progress` is set
at the first step and cleared at the third step, at which point neither
background subtask has settled, refuting the claim that the flag is cleared
only after both subtasks settle. -/
theorem startup_clear_counterexample :
    (startupTrace true true)[2]? =
      some (StartupSt.mk false false true false false) ∧
    (startupTrace true true)[3]? =
      some (StartupSt.mk false false false false false) := by decide

/-- C5 amended: for every pair of subtask outcomes, `startup_in_progress`
is cleared immediately after the two background subtasks are scheduled and
before either settles; the subtasks settle strictly afterwards, setting
their readiness flags according to their outcomes while the in-progress
flag stays false. -/
theorem startup_clear_after_schedule (faissOk arxivOk : Bool) :
    (startupTrace faissOk arxivOk)[2]? =
      some (StartupSt.mk false false true false false) ∧
    (startupTrace faissOk arxivOk)[3]? =
      some (StartupSt.mk false false false false false) ∧
    (startupTrace faissOk arxivOk)[5]? =
      some (StartupSt.mk faissOk arxivOk false true true) := by
  cases faissOk <;> cases arxivOk <;> decide

/-! ### Characterization of the related-documents candidate list -/

/-- Soundness of a candidate entry: it names another corpus document with
positive topic overlap and carries the common topics and Jaccard score. -/
theorem relatedEntries_mem {s : List (String × DocInfo)} {filename : String}
    {info : DocInfo} (hfind : alookup s filename = some info)
    (hnd : (s.map Prod.fst).Nodup) {e : RelatedEntry}
    (he : e ∈ relatedEntries s filename) :
    ∃ oinfo, e.filename ≠ filename ∧ alookup s e.filename = some oinfo ∧
      e.common_topics = info.topics.toFinset ∩ oinfo.topics.toFinset ∧
      e.common_topics.card ≠ 0 ∧
      e.similarity_score =
        ((info.topics.toFinset ∩ oinfo.topics.toFinset).card : ℚ) /
        ((info.topics.toFinset ∪ oinfo.topics.toFinset).card : ℚ) := by
  unfold relatedEntries at he
  rw [hfind] at he
  simp only [Option.map_some', Option.getD_some] at he
  rcases List.mem_filterMap.mp he with ⟨p, hp, hfp⟩
  by_cases h1 : p.1 ≠ filename
  · rw [if_pos h1] at hfp
    by_cases h2 : 0 < (info.topics.toFinset ∩ p.2.topics.toFinset).card
    · rw [if_pos h2] at hfp
      have he2 := Option.some.injEq .. ▸ hfp
      have he3 : RelatedEntry.mk p.1 (p.2.title.getD p.1)
          (info.topics.toFinset ∩ p.2.topics.toFinset)
          (((info.topics.toFinset ∩ p.2.topics.toFinset).card : ℚ) /
           ((info.topics.toFinset ∪ p.2.topics.toFinset).card : ℚ)) = e := by
        exact Option.some_injective _ hfp
      refine ⟨p.2, ?_, ?_, ?_, ?_, ?_⟩
      · rw [← he3]
        exact h1
      · rw [← he3]
        exact alookup_eq_some_of_mem hnd (show (p.1, p.2) ∈ s from hp)
      · rw [← he3]
      · rw [← he3]
        exact Nat.pos_iff_ne_zero.mp h2
      · rw [← he3]
    · rw [if_neg h2] at hfp
      cases hfp
  · rw [if_neg h1] at hfp
    cases hfp

/-- Completeness of the candidate list: every other corpus document with
positive topic overlap contributes its entry. -/
theorem relatedEntries_mem_of {s : List (String × DocInfo)} {filename : String}
    {info : DocInfo} (hfind : alookup s filename = some info)
    (other : String) (oinfo : DocInfo)
    (hmem : (other, oinfo) ∈ s) (hne : other ≠ filename)
    (hov : (info.topics.toFinset ∩ oinfo.topics.toFinset).card ≠ 0) :
    RelatedEntry.mk other (oinfo.title.getD other)
      (info.topics.toFinset ∩ oinfo.topics.toFinset)
      (((info.topics.toFinset ∩ oinfo.topics.toFinset).card : ℚ) /
       ((info.topics.toFinset ∪ oinfo.topics.toFinset).card : ℚ))
      ∈ relatedEntries s filename := by
  unfold relatedEntries
  rw [hfind]
  simp only [Option.map_some', Option.getD_some]
  refine List.mem_filterMap.mpr ⟨(other, oinfo), hmem, ?_⟩
  rw [if_pos hne, if_pos (Nat.pos_of_ne_zero hov)]

/-- Every candidate entry is keyed by the corpus document it came from, so
the candidate list inherits the corpus insertion order. -/
theorem relatedEntries_pairwise_keyIdx (s : List (String × DocInfo))
    (filename : String) (hnd : (s.map Prod.fst).Nodup) :
    (relatedEntries s filename).Pairwise
      (fun a b => keyIdx s a.filename < keyIdx s b.filename) := by
  unfold relatedEntries
  refine List.pairwise_filterMap.mpr ?_
  refine (pairwise_keyIdx s hnd).imp ?_
  intro p q hpq x hx y hy
  have hxp : x.filename = p.1 := by
    by_cases h1 : p.1 ≠ filename
    · rw [if_pos h1] at hx
      by_cases h2 : 0 < ((((alookup s filename).map DocInfo.topics).getD
          []).toFinset ∩ p.2.topics.toFinset).card
      · rw [if_pos h2] at hx
        have := Option.some_injective _ (Option.mem_def.mp hx)
        rw [← this]
      · rw [if_neg h2] at hx
        cases hx
    · rw [if_neg h1] at hx
      cases hx
  have hyq : y.filename = q.1 := by
    by_cases h1 : q.1 ≠ filename
    · rw [if_pos h1] at hy
      by_cases h2 : 0 < ((((alookup s filename).map DocInfo.topics).getD
          []).toFinset ∩ q.2.topics.toFinset).card
      · rw [if_pos h2] at hy
        have := Option.some_injective _ (Option.mem_def.mp hy)
        rw [← this]
      · rw [if_neg h2] at hy
        cases hy
    · rw [if_neg h1] at hy
      cases hy
  rw [hxp, hyq]
  exact hpq

/-! ### Fixtures for the related-documents scenarios -/

def mkInfo (topics : List String) : DocInfo := DocInfo.mk topics none []

def d12Corpus : List (String × DocInfo) :=
  [("D1", mkInfo ["cancer", "therapy"]), ("D2", mkInfo ["therapy", "genomics"])]

/-- C3 (amended): for every document present in the corpus, the
related-documents endpoint assigns each other document with non-empty topic
intersection an entry carrying the common topics and the Jaccard score,
excludes zero-overlap documents, sorts descending by score with ties broken
by corpus insertion order (the stable sort preserves dict iteration order,
not document id order), truncates to the top 5, and returns an empty list
when the target topic set is empty; concretely, with documents D1 (topics
cancer, therapy) and D2 (topics therapy, genomics), related D1 is the single
entry for D2 with common topic therapy and score one third. -/
theorem related_documents_spec (s : List (String × DocInfo)) (filename : String)
    (info : DocInfo)
    (hfind : alookup s filename = some info)
    (hnd : (s.map Prod.fst).Nodup) :
    ∃ out, get_related_documents s filename = Resp.ok out ∧
      (∀ e ∈ out, ∃ oinfo, e.filename ≠ filename ∧
        alookup s e.filename = some oinfo ∧
        e.common_topics = info.topics.toFinset ∩ oinfo.topics.toFinset ∧
        e.common_topics.card ≠ 0 ∧
        e.similarity_score =
          ((info.topics.toFinset ∩ oinfo.topics.toFinset).card : ℚ) /
          ((info.topics.toFinset ∪ oinfo.topics.toFinset).card : ℚ)) ∧
      out.Pairwise (fun a b => b.similarity_score < a.similarity_score ∨
        (a.similarity_score = b.similarity_score ∧
          keyIdx s a.filename < keyIdx s b.filename)) ∧
      out.length ≤ 5 ∧
      (∃ rest, (out ++ rest).Perm (relatedEntries s filename) ∧
        ∀ a ∈ out, ∀ b ∈ rest, b.similarity_score ≤ a.similarity_score) ∧
      (∀ other oinfo, (other, oinfo) ∈ s → other ≠ filename →
        (info.topics.toFinset ∩ oinfo.topics.toFinset).card ≠ 0 →
        RelatedEntry.mk other (oinfo.title.getD other)
          (info.topics.toFinset ∩ oinfo.topics.toFinset)
          (((info.topics.toFinset ∩ oinfo.topics.toFinset).card : ℚ) /
           ((info.topics.toFinset ∪ oinfo.topics.toFinset).card : ℚ))
          ∈ relatedEntries s filename) ∧
      (info.topics.toFinset = ∅ → out = []) ∧
      get_related_documents d12Corpus "D1" =
        Resp.ok [RelatedEntry.mk "D2" "D2" {"therapy"} ((1 : ℚ) / (3 : ℚ))] := by
  have hconc : get_related_documents d12Corpus "D1" =
      Resp.ok [RelatedEntry.mk "D2" "D2" {"therapy"} ((1 : ℚ) / (3 : ℚ))] := by
    rfl
  have hmemof : ∀ other oinfo, (other, oinfo) ∈ s → other ≠ filename →
      (info.topics.toFinset ∩ oinfo.topics.toFinset).card ≠ 0 →
      RelatedEntry.mk other (oinfo.title.getD other)
        (info.topics.toFinset ∩ oinfo.topics.toFinset)
        (((info.topics.toFinset ∩ oinfo.topics.toFinset).card : ℚ) /
         ((info.topics.toFinset ∪ oinfo.topics.toFinset).card : ℚ))
        ∈ relatedEntries s filename :=
    fun other oinfo hmem hne hov =>
      relatedEntries_mem_of hfind other oinfo hmem hne hov
  by_cases hempty : info.topics.toFinset = ∅
  · refine ⟨[], ?_, ?_, List.Pairwise.nil, by simp, ?_, hmemof, fun _ => rfl,
      hconc⟩
    · unfold get_related_documents
      rw [hfind]
      show (if info.topics.toFinset = ∅ then Resp.ok [] else
        Resp.ok ((sortDesc RelatedEntry.similarity_score
          (relatedEntries s filename)).take 5)) = Resp.ok []
      rw [if_pos hempty]
    · intro e he
      exact absurd he (List.not_mem_nil e)
    · exact ⟨relatedEntries s filename, by simp,
        fun a ha => absurd ha (List.not_mem_nil a)⟩
  · have hcand := relatedEntries_pairwise_keyIdx s filename hnd
    have hsorted := sortDesc_pairwise RelatedEntry.similarity_score
      (fun a b => keyIdx s a.filename < keyIdx s b.filename)
      (relatedEntries s filename) hcand
    have hperm := sortDesc_perm RelatedEntry.similarity_score
      (relatedEntries s filename)
    refine ⟨(sortDesc RelatedEntry.similarity_score
        (relatedEntries s filename)).take 5, ?_, ?_, ?_, ?_, ?_, hmemof,
      fun h => absurd h hempty, hconc⟩
    · unfold get_related_documents
      rw [hfind]
      show (if info.topics.toFinset = ∅ then Resp.ok [] else
        Resp.ok ((sortDesc RelatedEntry.similarity_score
          (relatedEntries s filename)).take 5)) =
        Resp.ok ((sortDesc RelatedEntry.similarity_score
          (relatedEntries s filename)).take 5)
      rw [if_neg hempty]
    · intro e he
      have h1 : e ∈ sortDesc RelatedEntry.similarity_score
          (relatedEntries s filename) := List.mem_of_mem_take he
      exact relatedEntries_mem hfind hnd (hperm.mem_iff.mp h1)
    · exact List.Pairwise.sublist (List.take_sublist 5 _) hsorted
    · rw [List.length_take]
      exact min_le_left _ _
    · refine ⟨(sortDesc RelatedEntry.similarity_score
        (relatedEntries s filename)).drop 5, ?_, ?_⟩
      · rw [List.take_append_drop]
        exact hperm
      · have hmonok := sortDesc_key_mono RelatedEntry.similarity_score
          (relatedEntries s filename)
        rw [← List.take_append_drop 5 (sortDesc RelatedEntry.similarity_score
          (relatedEntries s filename))] at hmonok
        exact (List.pairwise_append.mp hmonok).2.2

/-! ### Evaluation helpers for concrete sorts -/

theorem insertDesc_eq_cons {α : Type} (key : α → ℚ) (x : α) (l : List α)
    (h : ∀ b ∈ l, ¬ key x < key b) : insertDesc key x l = x :: l := by
  cases l with
  | nil => rfl
  | cons y ys => rw [insertDesc, if_neg (h y (List.mem_cons_self y ys))]

theorem sortDesc_eq_self {α : Type} (key : α → ℚ) (l : List α)
    (h : ∀ a ∈ l, ∀ b ∈ l, ¬ key a < key b) : sortDesc key l = l := by
  induction l with
  | nil => rfl
  | cons x xs ih =>
    rw [sortDesc, ih (fun a ha b hb =>
      h a (List.mem_cons_of_mem _ ha) b (List.mem_cons_of_mem _ hb))]
    exact insertDesc_eq_cons key x xs (fun b hb =>
      h x (List.mem_cons_self _ _) b (List.mem_cons_of_mem _ hb))

theorem insertDesc_eq_append {α : Type} (key : α → ℚ) (x : α) (l : List α)
    (h : ∀ b ∈ l, key x < key b) : insertDesc key x l = l ++ [x] := by
  induction l with
  | nil => rfl
  | cons y ys ih =>
    rw [insertDesc, if_pos (h y (List.mem_cons_self _ _)),
      ih (fun b hb => h b (List.mem_cons_of_mem _ hb))]
    rfl

/-! ### Witness and counterexample for the related-documents ranking -/

/-- Witness for `related_documents_spec` at the two-document fixture. -/
theorem related_documents_spec_witness :
    alookup d12Corpus "D1" = some (mkInfo ["cancer", "therapy"]) ∧
    (d12Corpus.map Prod.fst).Nodup ∧
    get_related_documents d12Corpus "D1" =
      Resp.ok [RelatedEntry.mk "D2" "D2" {"therapy"} ((1 : ℚ) / (3 : ℚ))] := by
  refine ⟨by rfl, by decide, ?_⟩
  obtain ⟨out, _, _, _, _, _, _, _, hconc⟩ :=
    related_documents_spec d12Corpus "D1" (mkInfo ["cancer", "therapy"])
      (by rfl) (by decide)
  exact hconc

/-- Corpus in which two documents tie in score against the target and their
insertion order disagrees with the document id order. -/
def tieCorpus : List (String × DocInfo) :=
  [("T", mkInfo ["t", "u"]), ("B", mkInfo ["t"]), ("A", mkInfo ["u"])]

/-- C3 counterexample: documents B and A both score one half against target
T, B was inserted before A, and the endpoint returns B before A even though
the document id order would put A first: ties are broken by corpus insertion
order, not by document id. -/
theorem related_tiebreak_counterexample :
    get_related_documents tieCorpus "T" =
      Resp.ok [RelatedEntry.mk "B" "B" {"t"} ((1 : ℚ) / (2 : ℚ)),
               RelatedEntry.mk "A" "A" {"u"} ((1 : ℚ) / (2 : ℚ))] ∧
    ("A" : String) < "B" := by
  constructor
  · have hf : alookup tieCorpus "T" = some (mkInfo ["t", "u"]) := by rfl
    have hc : relatedEntries tieCorpus "T" =
        [RelatedEntry.mk "B" "B" {"t"} ((1 : ℚ) / (2 : ℚ)),
         RelatedEntry.mk "A" "A" {"u"} ((1 : ℚ) / (2 : ℚ))] := by rfl
    have hall : ∀ c ∈ [RelatedEntry.mk "B" "B" {"t"} ((1 : ℚ) / (2 : ℚ)),
        RelatedEntry.mk "A" "A" {"u"} ((1 : ℚ) / (2 : ℚ))],
        c.similarity_score = (1 : ℚ) / (2 : ℚ) := by
      intro c hc2
      rcases List.mem_cons.mp hc2 with h | h
      · rw [h]
      · rcases List.mem_cons.mp h with h2 | h2
        · rw [h2]
        · exact absurd h2 (List.not_mem_nil c)
    have hs := sortDesc_eq_self RelatedEntry.similarity_score
      [RelatedEntry.mk "B" "B" {"t"} ((1 : ℚ) / (2 : ℚ)),
       RelatedEntry.mk "A" "A" {"u"} ((1 : ℚ) / (2 : ℚ))]
      (by
        intro a ha b hb
        rw [hall a ha, hall b hb]
        exact lt_irrefl _)
    unfold get_related_documents
    rw [hf]
    show (if (mkInfo ["t", "u"]).topics.toFinset = ∅ then Resp.ok [] else
      Resp.ok ((sortDesc RelatedEntry.similarity_score
        (relatedEntries tieCorpus "T")).take 5)) = _
    rw [if_neg (by decide), hc, hs]
    rfl
  · rw [String.lt_iff_toList_lt]
    decide

/-- C4 (amended): relatedness is symmetric before the top-5 cut: whenever
document B appears with score q in the list returned by related(A), an entry
for A with the same score q appears in the pre-truncation candidate list of
related(B); only the final truncation to five entries can break symmetry of
the returned lists. -/
theorem related_candidates_symmetric (s : List (String × DocInfo))
    (A : String) (out : List RelatedEntry) (e : RelatedEntry)
    (hnd : (s.map Prod.fst).Nodup)
    (hout : get_related_documents s A = Resp.ok out)
    (he : e ∈ out) :
    ∃ e2, e2 ∈ relatedEntries s e.filename ∧ e2.filename = A ∧
      e2.similarity_score = e.similarity_score := by
  unfold get_related_documents at hout
  cases hfA : alookup s A with
  | none =>
    rw [hfA] at hout
    exact Resp.noConfusion hout
  | some info =>
    rw [hfA] at hout
    by_cases hempty : info.topics.toFinset = ∅
    · have hout2 : Resp.ok ([] : List RelatedEntry) = Resp.ok out := by
        rw [← hout]
        show Resp.ok [] =
          (if info.topics.toFinset = ∅ then Resp.ok [] else
            Resp.ok ((sortDesc RelatedEntry.similarity_score
              (relatedEntries s A)).take 5))
        rw [if_pos hempty]
      have : out = [] := (Resp.ok.injEq .. ▸ hout2).symm
      rw [this] at he
      exact absurd he (List.not_mem_nil e)
    · have hout2 : Resp.ok ((sortDesc RelatedEntry.similarity_score
          (relatedEntries s A)).take 5) = Resp.ok out := by
        rw [← hout]
        show _ =
          (if info.topics.toFinset = ∅ then Resp.ok [] else
            Resp.ok ((sortDesc RelatedEntry.similarity_score
              (relatedEntries s A)).take 5))
        rw [if_neg hempty]
      have houteq : out = (sortDesc RelatedEntry.similarity_score
          (relatedEntries s A)).take 5 := by
        have := Resp.ok.injEq .. ▸ hout2
        exact this.symm
      rw [houteq] at he
      have hecand : e ∈ relatedEntries s A :=
        (sortDesc_perm RelatedEntry.similarity_score
          (relatedEntries s A)).mem_iff.mp (List.mem_of_mem_take he)
      obtain ⟨oinfo, hene, hfB, hcommon, hcard, hscore⟩ :=
        relatedEntries_mem hfA hnd hecand
      have hmemA : (A, info) ∈ s := mem_of_alookup_eq_some hfA
      have hov2 : (oinfo.topics.toFinset ∩ info.topics.toFinset).card ≠ 0 := by
        rw [Finset.inter_comm]
        rw [hcommon] at hcard
        exact hcard
      have hne2 : A ≠ e.filename := fun h => hene h.symm
      refine ⟨RelatedEntry.mk A (info.title.getD A)
        (oinfo.topics.toFinset ∩ info.topics.toFinset)
        (((oinfo.topics.toFinset ∩ info.topics.toFinset).card : ℚ) /
         ((oinfo.topics.toFinset ∪ info.topics.toFinset).card : ℚ)),
        relatedEntries_mem_of hfB A info hmemA hne2 hov2, rfl, ?_⟩
      rw [hscore, Finset.inter_comm, Finset.union_comm]

/-- Corpus showing that the top-5 cut breaks symmetry: A is related to B
alone, while B is strongly related to five other documents. -/
def symCorpus : List (String × DocInfo) :=
  [("A", mkInfo ["t"]), ("B", mkInfo ["t", "x"]),
   ("C1", mkInfo ["t", "x"]), ("C2", mkInfo ["t", "x"]),
   ("C3", mkInfo ["t", "x"]), ("C4", mkInfo ["t", "x"]),
   ("C5", mkInfo ["t", "x"])]

/-- Entry shape produced against target A (overlap on t alone). -/
def symA (name : String) : RelatedEntry :=
  RelatedEntry.mk name name {"t"} ((1 : ℚ) / (2 : ℚ))

/-- Entry shape produced against target B for the C documents
(full overlap on t and x). -/
def symB (name : String) : RelatedEntry :=
  RelatedEntry.mk name name {"t", "x"} ((2 : ℚ) / (2 : ℚ))

/-- C4 counterexample: B appears in related(A) with score one half and has a
non-empty topic set, yet no entry for A appears in related(B): the five C
documents outscore A and the top-5 cut drops it. -/
theorem related_symmetry_counterexample :
    get_related_documents symCorpus "A" =
      Resp.ok [symA "B", symA "C1", symA "C2", symA "C3", symA "C4"] ∧
    get_related_documents symCorpus "B" =
      Resp.ok [symB "C1", symB "C2", symB "C3", symB "C4", symB "C5"] ∧
    (([symB "C1", symB "C2", symB "C3", symB "C4", symB "C5"].map
      RelatedEntry.filename).contains "A") = false ∧
    (symA "B").similarity_score = (1 : ℚ) / (2 : ℚ) ∧
    (mkInfo ["t", "x"]).topics ≠ [] := by
  refine ⟨?_, ?_, by rfl, by rfl, by decide⟩
  · have hfA : alookup symCorpus "A" = some (mkInfo ["t"]) := by rfl
    have hcA : relatedEntries symCorpus "A" =
        [symA "B", symA "C1", symA "C2", symA "C3", symA "C4", symA "C5"] := by
      rfl
    have hall : ∀ c ∈ [symA "B", symA "C1", symA "C2", symA "C3", symA "C4",
        symA "C5"], c.similarity_score = (1 : ℚ) / (2 : ℚ) := by
      intro c hc
      fin_cases hc <;> rfl
    have hsA := sortDesc_eq_self RelatedEntry.similarity_score
      [symA "B", symA "C1", symA "C2", symA "C3", symA "C4", symA "C5"]
      (by
        intro a ha b hb
        rw [hall a ha, hall b hb]
        exact lt_irrefl _)
    unfold get_related_documents
    rw [hfA]
    show (if (mkInfo ["t"]).topics.toFinset = ∅ then Resp.ok [] else
      Resp.ok ((sortDesc RelatedEntry.similarity_score
        (relatedEntries symCorpus "A")).take 5)) = _
    rw [if_neg (by decide), hcA, hsA]
    rfl
  · have hfB : alookup symCorpus "B" = some (mkInfo ["t", "x"]) := by rfl
    have hcB : relatedEntries symCorpus "B" =
        [symA "A", symB "C1", symB "C2", symB "C3", symB "C4", symB "C5"] := by
      rfl
    have hall : ∀ c ∈ [symB "C1", symB "C2", symB "C3", symB "C4", symB "C5"],
        c.similarity_score = (2 : ℚ) / (2 : ℚ) := by
      intro c hc
      fin_cases hc <;> rfl
    have h5 := sortDesc_eq_self RelatedEntry.similarity_score
      [symB "C1", symB "C2", symB "C3", symB "C4", symB "C5"]
      (by
        intro a ha b hb
        rw [hall a ha, hall b hb]
        exact lt_irrefl _)
    have hins := insertDesc_eq_append RelatedEntry.similarity_score (symA "A")
      [symB "C1", symB "C2", symB "C3", symB "C4", symB "C5"]
      (by
        intro b hb
        rw [hall b hb]
        show (1 : ℚ) / (2 : ℚ) < (2 : ℚ) / (2 : ℚ)
        norm_num)
    unfold get_related_documents
    rw [hfB]
    show (if (mkInfo ["t", "x"]).topics.toFinset = ∅ then Resp.ok [] else
      Resp.ok ((sortDesc RelatedEntry.similarity_score
        (relatedEntries symCorpus "B")).take 5)) = _
    rw [if_neg (by decide), hcB, sortDesc, h5, hins]
    rfl

/-- Witness for `related_candidates_symmetric` at the two-document fixture. -/
theorem related_candidates_symmetric_witness :
    (d12Corpus.map Prod.fst).Nodup ∧
    get_related_documents d12Corpus "D1" =
      Resp.ok [RelatedEntry.mk "D2" "D2" {"therapy"} ((1 : ℚ) / (3 : ℚ))] ∧
    ∃ e2, e2 ∈ relatedEntries d12Corpus
        (RelatedEntry.mk "D2" "D2" {"therapy"} ((1 : ℚ) / (3 : ℚ))).filename ∧
      e2.filename = "D1" ∧
      e2.similarity_score =
        (RelatedEntry.mk "D2" "D2" {"therapy"}
          ((1 : ℚ) / (3 : ℚ))).similarity_score :=
  ⟨by decide, by rfl,
   related_candidates_symmetric d12Corpus "D1"
     [RelatedEntry.mk "D2" "D2" {"therapy"} ((1 : ℚ) / (3 : ℚ))]
     (RelatedEntry.mk "D2" "D2" {"therapy"} ((1 : ℚ) / (3 : ℚ)))
     (by decide) (by rfl) (List.mem_cons_self _ _)⟩

/-! ### Deletion and the vector store -/

def cexChunk : Chunk := Chunk.mk "text" (ChunkMeta.mk "doc.pdf" "body" 0)

/-- State with a single uploaded document whose only chunk backs the live
vector store. -/
def cexState : AppState :=
  AppState.mk {"doc.pdf"} [("doc.pdf", [cexChunk])]
    [("doc.pdf", mkInfo ["x"])] (some [cexChunk])

/-- C1 counterexample: deleting the last document succeeds and empties the
corpus, but the vector store is not rebuilt: it still holds the deleted
chunk, so the live index does not reflect the post-deletion (empty) corpus
snapshot. -/
theorem delete_empty_corpus_counterexample :
    (delete_file cexState "doc.pdf").2 = Resp.ok "File deleted successfully" ∧
    (delete_file cexState "doc.pdf").1.processed_documents = [] ∧
    (delete_file cexState "doc.pdf").1.vector_store = some [cexChunk] ∧
    some [cexChunk] ≠
      some (allChunks
        ((delete_file cexState "doc.pdf").1.processed_documents)) := by
  decide

/-- C1 (amended): every successful deletion removes the file and the corpus
record and rebuilds the vector store from exactly the chunks of the
remaining corpus, but only when that corpus is non-empty; when the deletion
leaves the corpus empty, no rebuild is triggered and the previous vector
store stays live. -/
theorem delete_rebuild_spec (st : AppState) (filename : String)
    (hfile : filename ∈ st.uploads_dir) :
    (delete_file st filename).2 = Resp.ok "File deleted successfully" ∧
    (delete_file st filename).1.uploads_dir = st.uploads_dir.erase filename ∧
    (delete_file st filename).1.processed_documents =
      st.processed_documents.filter (fun p => p.1 != filename) ∧
    (delete_file st filename).1.document_sections = st.document_sections ∧
    (allChunks ((delete_file st filename).1.processed_documents) ≠ [] →
      (delete_file st filename).1.vector_store =
        some (allChunks ((delete_file st filename).1.processed_documents))) ∧
    (allChunks ((delete_file st filename).1.processed_documents) = [] →
      (delete_file st filename).1.vector_store = st.vector_store) := by
  obtain ⟨fs, pd, ds, vs⟩ := st
  unfold delete_file
  rw [if_pos hfile]
  refine ⟨rfl, rfl, rfl, rfl, ?_, ?_⟩
  · intro h
    show (if (allChunks (pd.filter (fun p => p.1 != filename))).isEmpty
        then vs
        else some (allChunks (pd.filter (fun p => p.1 != filename)))) = _
    rw [if_neg (by simpa [List.isEmpty_iff] using h)]
  · intro h
    show (if (allChunks (pd.filter (fun p => p.1 != filename))).isEmpty
        then vs
        else some (allChunks (pd.filter (fun p => p.1 != filename)))) = _
    rw [if_pos (List.isEmpty_iff.mpr h)]

def keepChunk : Chunk := Chunk.mk "other" (ChunkMeta.mk "keep.pdf" "body" 0)

/-- Two-document state: deleting one leaves a non-empty corpus. -/
def delState : AppState :=
  AppState.mk {"doc.pdf", "keep.pdf"}
    [("doc.pdf", [cexChunk]), ("keep.pdf", [keepChunk])] [] none

/-- Witness for `delete_rebuild_spec` on the non-empty remaining corpus. -/
theorem delete_rebuild_spec_witness :
    ("doc.pdf" ∈ delState.uploads_dir) ∧
    (delete_file delState "doc.pdf").2 = Resp.ok "File deleted successfully" ∧
    (allChunks ((delete_file delState "doc.pdf").1.processed_documents) ≠ [] →
      (delete_file delState "doc.pdf").1.vector_store =
        some (allChunks
          ((delete_file delState "doc.pdf").1.processed_documents))) :=
  ⟨by decide, (delete_rebuild_spec delState "doc.pdf" (by decide)).1,
   (delete_rebuild_spec delState "doc.pdf" (by decide)).2.2.2.2.1⟩

/-- C10: deletion judges existence by the on-disk uploads directory alone:
when the file is absent the endpoint fails with NotFound and the whole state,
corpus maps included, is unchanged, even if a corpus record exists for the
filename; when the file exists on disk the deletion succeeds whether or not
a corpus record exists, dropping any record present. -/
theorem delete_disk_existence_spec (st : AppState) (filename : String) :
    (filename ∉ st.uploads_dir →
      delete_file st filename =
        (st, Resp.err (ApiError.notFound "File not found"))) ∧
    (filename ∈ st.uploads_dir →
      (delete_file st filename).2 = Resp.ok "File deleted successfully" ∧
      (delete_file st filename).1.processed_documents =
        st.processed_documents.filter (fun p => p.1 != filename)) := by
  constructor
  · intro h
    unfold delete_file
    rw [if_neg h]
  · intro h
    unfold delete_file
    rw [if_pos h]
    exact ⟨rfl, rfl⟩

/-- State whose corpus has a record but whose uploads directory is empty. -/
def stRecordOnly : AppState :=
  AppState.mk ∅ [("doc.pdf", [cexChunk])] [] none

/-- State whose uploads directory has the file but whose corpus is empty. -/
def stFileOnly : AppState :=
  AppState.mk {"doc.pdf"} [] [] none

/-- Witness for `delete_disk_existence_spec` in both directions: a corpus
record without a file yields NotFound with the record intact, and a file
without a corpus record deletes successfully. -/
theorem delete_disk_existence_spec_witness :
    ("doc.pdf" ∉ stRecordOnly.uploads_dir) ∧
    delete_file stRecordOnly "doc.pdf" =
      (stRecordOnly, Resp.err (ApiError.notFound "File not found")) ∧
    ("doc.pdf" ∈ stFileOnly.uploads_dir) ∧
    (delete_file stFileOnly "doc.pdf").2 =
      Resp.ok "File deleted successfully" :=
  ⟨by decide,
   (delete_disk_existence_spec stRecordOnly "doc.pdf").1 (by decide),
   by decide,
   ((delete_disk_existence_spec stFileOnly "doc.pdf").2 (by decide)).1⟩

/-! ### Upload atomicity -/

/-- C9: upload is atomic with respect to processing failure: when the PDF
processing step raises after the file has been saved, the handler removes
the saved file and fails with a 500 error, leaving the uploads directory,
both corpus maps and the vector store exactly as before the request. -/
theorem upload_atomic_on_parse_failure (st : AppState)
    (orig_filename timestamp : String) (contents_len : Nat) (msg : String)
    (extract_topics : Except String (List String))
    (hpdf : (".pdf".toList.isSuffixOf orig_filename.toList) = true)
    (hlen : contents_len ≠ 0)
    (hfresh : (timestamp ++ "_" ++ orig_filename) ∉ st.uploads_dir) :
    upload_pdf st orig_filename timestamp contents_len (Except.error msg)
      extract_topics =
      (st, Resp.err (ApiError.serverError ("Error processing PDF: " ++ msg))) := by
  obtain ⟨fs, pd, ds, vs⟩ := st
  have hfresh2 : (timestamp ++ "_" ++ orig_filename) ∉ fs := hfresh
  unfold upload_pdf
  rw [if_neg (not_not_intro hpdf), if_neg hlen]
  show (AppState.mk ((insert (timestamp ++ "_" ++ orig_filename) fs).erase
      (timestamp ++ "_" ++ orig_filename)) pd ds vs,
    Resp.err (ApiError.serverError ("Error processing PDF: " ++ msg))) = _
  rw [Finset.erase_insert hfresh2]

/-- Witness for `upload_atomic_on_parse_failure` at an empty state. -/
theorem upload_atomic_on_parse_failure_witness :
    ((".pdf".toList.isSuffixOf "a.pdf".toList) = true) ∧
    ((1 : Nat) ≠ 0) ∧
    (("t" ++ "_" ++ "a.pdf") ∉ (AppState.mk ∅ [] [] none).uploads_dir) ∧
    upload_pdf (AppState.mk ∅ [] [] none) "a.pdf" "t" 1 (Except.error "boom")
      (Except.ok []) =
      (AppState.mk ∅ [] [] none,
       Resp.err (ApiError.serverError ("Error processing PDF: " ++ "boom"))) :=
  ⟨by decide, by decide, by decide,
   upload_atomic_on_parse_failure (AppState.mk ∅ [] [] none) "a.pdf" "t" 1
     "boom" (Except.ok []) (by decide) (by decide) (by decide)⟩
